import Mathlib

/-!
# Tail sampler (`utils/tail_sampler.go`)

A shallow embedding of `SpanStat` (a running mean / variance accumulator in the
style of Welford) and of `TailSampler.addSpan`, the retain / drop decision built
on it.

Modelling conventions.

* `float64` values live in an arbitrary linear ordered field `α` (exact
  arithmetic); the definitions are computable and can be run at `α := ℚ`.
  `Sqrt` is a parameter of the definitions that call it.
* `num` is an `int64` in the source.  It is modelled as an unbounded `Int`, with
  no wrap-around: the only arithmetic on it is one increment per `Push`, and the
  `int64` limit is 2^63 pushes into one receiver away.
* Every method of `SpanStat` has a value receiver.  A method is embedded as a
  function from the receiver to the pair (receiver when the method returns,
  returned value): the first component is the method's own variable `s`, a copy
  that no caller sees.  A call site is embedded apart: `callPush` is the
  statement `s.Push(x)` on a variable, which keeps the variable as it was and
  yields the two returned values, and `addSpan` calls `Push` on a map element
  and never stores anything back into the map.  `pushAll` chains the copies and
  is used to range over receiver states only; it is not a Go call sequence.
* `Lock` / `Unlock` are not declared for `SpanStat` and touch no field; the
  embedding is sequential and leaves them out.
-/

namespace TailSampling

variable {α : Type} [LinearOrderedField α]

/-- Span statistics: `type SpanStat struct`. -/
structure SpanStat (α : Type) where
  totalDuration : Int
  num : Int
  m_oldM : α
  m_newM : α
  m_oldS : α
  m_newS : α

/-- The Go zero value of `SpanStat`. -/
def SpanStat.zero : SpanStat α :=
  { totalDuration := 0, num := 0, m_oldM := 0, m_newM := 0, m_oldS := 0, m_newS := 0 }

/-- Method `func (s SpanStat) Mean() float64`. -/
def SpanStat.Mean (s : SpanStat α) : SpanStat α × α :=
  if s.num > 0 then
    (s, s.m_newM)
  else
    (s, 0)

/-- Method `func (s SpanStat) Variance() float64`. -/
def SpanStat.Variance (s : SpanStat α) : SpanStat α × α :=
  if s.num > 1 then
    (s, s.m_newS / ((s.num - 1 : Int) : α))
  else
    (s, 0)

/-- The assignments of `Push` (source lines 53 to 66), up to the `return`. -/
def SpanStat.pushBody (s : SpanStat α) (x : α) : SpanStat α :=
  let s := { s with num := s.num + 1 }
  if s.num = 1 then
    { s with m_oldM := x, m_newM := x, m_oldS := 0 }
  else
    let s := { s with m_newM := s.m_oldM + (x - s.m_oldM) / (s.num : α) }
    let s := { s with m_newS := s.m_oldS + (x - s.m_oldM) * (x - s.m_newM) }
    -- set up for next iteration
    let s := { s with m_oldM := s.m_newM }
    { s with m_oldS := s.m_newS }

/-- Method `func (s SpanStat) Push(x float64) (float64, float64)`:
the body, then `return s.Mean(), s.Variance()`. -/
def SpanStat.Push (s : SpanStat α) (x : α) : SpanStat α × α × α :=
  let s := s.pushBody x
  let r1 := s.Mean
  let r2 := r1.1.Variance
  (r2.1, r1.2, r2.2)

/-- Method `func (s SpanStat) StdDev() float64`. -/
def SpanStat.StdDev (Sqrt : α → α) (s : SpanStat α) : SpanStat α × α :=
  let r := s.Variance
  (r.1, Sqrt r.2)

/-- The chain of receiver copies: each `Push` runs on the copy the previous one
left.  No Go caller holds these states (the receiver is passed by value, see
`callPushAll` for the call sequence); the chain is the running computation the
body of `Push` would perform if its updates were kept, and serves to range over
receiver states. -/
def SpanStat.pushAll (s : SpanStat α) (xs : List α) : SpanStat α :=
  xs.foldl (fun st x => (st.Push x).1) s

/-- The statement `s.Push(x)` at a call site that holds the stat in a variable
`s`.  `Push` has a value receiver: it runs on a copy of `s`, and the caller gets
the two returned values only.  The first component is the caller's variable
after the call, which is the variable before the call. -/
def SpanStat.callPush (s : SpanStat α) (x : α) : SpanStat α × α × α :=
  (s, (s.Push x).2)

/-- The call sequence `s.Push(x_1); ...; s.Push(x_n)` on one variable `s`: the
variable after the calls, and the pairs the calls returned, in call order. -/
def SpanStat.callPushAll (s : SpanStat α) : List α → SpanStat α × List (α × α)
  | [] => (s, [])
  | x :: xs =>
    let r := s.callPush x
    let rs := SpanStat.callPushAll r.1 xs
    (rs.1, r.2 :: rs.2)

/-- The fields of a span that `addSpan` reads (the type `Span` is not declared
in this file); `duration` is a `time.Duration`, a count of nanoseconds. -/
structure Span where
  operationName : String
  duration : Int

/-- The constant `time.Millisecond`, in nanoseconds. -/
def Millisecond : Int := 1000000

/-- Placeholder for all span statistics: `type TailSampler struct`.  The map
`spanRecorder` is an association list; the nil map is the empty list. -/
structure TailSampler (α : Type) where
  operation : String
  spanRecorder : List (String × SpanStat α)

/-- Constructor `NewTailSampler`: only `operation` is set, the map stays nil. -/
def NewTailSampler (operation : String) : TailSampler α :=
  { operation := operation, spanRecorder := [] }

/-- A Go map read `m[k]`: the stored value, or the zero value when the key is
absent.  The result is a copy. -/
def mapIndex (m : List (String × SpanStat α)) (k : String) : SpanStat α :=
  match m.lookup k with
  | some s => s
  | none => SpanStat.zero

/-- Modelled from the spec: `addSpan` calls `t.Mean()`, and no method `Mean` is
declared for `TailSampler`.  The spec (4.2, steps 2 and 3) classifies against
the post-push mean that `Push` returned, which is the argument here. -/
def TailSampler.Mean (_t : TailSampler α) (mean : α) : α := mean

/-- Modelled from the spec: `addSpan` calls `t.StdDev()`, and no method `StdDev`
is declared for `TailSampler`.  The spec (4.2, steps 2 and 3) classifies against
the post-push standard deviation, the square root of the variance that `Push`
returned, which is the argument here. -/
def TailSampler.StdDev (Sqrt : α → α) (_t : TailSampler α) (variance : α) : α :=
  Sqrt variance

/-- The limit check of `addSpan` (source lines 106 to 112) on the values `m`,
`s` and `span.duration`. -/
def limitCheck (m s d : α) : Bool :=
  let toSend := true
  if m - 2 * s > d ∧ m + 2 * s < d then
    -- Its within limits, hence don't send this span.
    false
  else
    toSend

/-- Method `func (t *TailSampler) addSpan(span Span) bool`.  The first
component is the sampler when the call returns: the receiver that `Push` updated
is a copy of the map element and is dropped, and nothing is written to `t`. -/
def TailSampler.addSpan (Sqrt : α → α) (t : TailSampler α) (span : Span) :
    TailSampler α × Bool :=
  let r := (mapIndex t.spanRecorder span.operationName).Push
    ((Int.tdiv span.duration Millisecond : Int) : α)
  let mean := r.2.1
  let variance := r.2.2
  let m := t.Mean mean
  let s := t.StdDev Sqrt variance
  (t, limitCheck m s (span.duration : α))

/-- A run of `addSpan` calls, one after the other: the final sampler and the
decisions in call order. -/
def TailSampler.addSpans (Sqrt : α → α) (t : TailSampler α) :
    List Span → TailSampler α × List Bool
  | [] => (t, [])
  | span :: rest =>
    let r := t.addSpan Sqrt span
    let rs := TailSampler.addSpans Sqrt r.1 rest
    (rs.1, r.2 :: rs.2)

/-- The count recorded in the registry for an operation (0 when there is no
entry, as a map read gives the zero value). -/
def TailSampler.count (t : TailSampler α) (op : String) : Int :=
  (mapIndex t.spanRecorder op).num

/-- The arithmetic mean of a sequence, computed from the whole sequence (first
pass of the two-pass formulas): `(x_1 + ... + x_n) / n`. -/
def twoPassMean (xs : List α) : α :=
  xs.sum / (xs.length : α)

/-- The sample variance of a sequence, computed from the whole sequence (second
pass of the two-pass formulas): `sum_i (x_i - mean)^2 / (n - 1)`. -/
def twoPassVariance (xs : List α) : α :=
  (xs.map (fun x => (x - twoPassMean xs) ^ 2)).sum / ((xs.length : α) - 1)

/-- The invariant of the accumulator after the sequence `l` has been pushed into
a zero value: count, agreement of the old and new fields, and the mean and sum
of squared deviations in division-free form. -/
def Welford (s : SpanStat α) (l : List α) : Prop :=
  s.num = (l.length : Int) ∧ s.m_oldM = s.m_newM ∧ s.m_oldS = s.m_newS ∧
  s.m_newM * (l.length : α) = l.sum ∧
  s.m_newS * (l.length : α) = (l.length : α) * (l.map (fun x => x ^ 2)).sum - l.sum ^ 2 ∧
  (l = [] → s.m_newS = 0)

/-- A sampler whose registry holds, for `"op"`, the statistics of the two
observations 1 and 2 (milliseconds). -/
def samplerOneTwo : TailSampler α :=
  { operation := "op",
    spanRecorder := [("op", (SpanStat.zero : SpanStat α).pushAll [1, 2])] }

/-- The value `addSpan` hands to `Push` (source line 100):
`int64(span.duration / time.Millisecond)`, whole milliseconds, the integer
division rounding toward zero. -/
def pushedValue (span : Span) : α :=
  ((Int.tdiv span.duration Millisecond : Int) : α)

/-- The value `addSpan` compares with the limits (source line 107):
`span.duration` itself, in nanoseconds. -/
def comparedValue (span : Span) : α :=
  (span.duration : α)

/-- Modelled from the spec: the statistics query `Stats` is not in the source.
The spec (4.2) has `Stats(operation) -> (mean, variance, count)` as a read-only
query of the named operation that returns zero-valued defaults when the
operation has never been observed, without creating an entry.  The first
component is the sampler when the query returns. -/
def TailSampler.Stats (t : TailSampler α) (operation : String) :
    TailSampler α × (α × α × Int) :=
  match t.spanRecorder.lookup operation with
  | some s => (t, (s.Mean.2, s.Variance.2, s.num))
  | none => (t, (0, 0, 0))

/-- The mean recorded in the registry for an operation. -/
def TailSampler.recordedMean (t : TailSampler α) (op : String) : α :=
  (mapIndex t.spanRecorder op).Mean.2

/-- The variance recorded in the registry for an operation. -/
def TailSampler.recordedVariance (t : TailSampler α) (op : String) : α :=
  (mapIndex t.spanRecorder op).Variance.2

/-! ## Basic facts -/

@[simp] theorem Mean_fst (s : SpanStat α) : s.Mean.1 = s := by
  unfold SpanStat.Mean; split <;> rfl

@[simp] theorem Variance_fst (s : SpanStat α) : s.Variance.1 = s := by
  unfold SpanStat.Variance; split <;> rfl

@[simp] theorem StdDev_fst (Sqrt : α → α) (s : SpanStat α) : (s.StdDev Sqrt).1 = s := by
  simp [SpanStat.StdDev]

theorem Mean_snd (s : SpanStat α) : s.Mean.2 = if s.num > 0 then s.m_newM else 0 := by
  unfold SpanStat.Mean; split <;> rfl

theorem Variance_snd (s : SpanStat α) :
    s.Variance.2 = if s.num > 1 then s.m_newS / ((s.num - 1 : Int) : α) else 0 := by
  unfold SpanStat.Variance; split <;> rfl

@[simp] theorem Push_fst (s : SpanStat α) (x : α) : (s.Push x).1 = s.pushBody x := by
  simp [SpanStat.Push]

theorem Push_snd (s : SpanStat α) (x : α) :
    (s.Push x).2 = ((s.pushBody x).Mean.2, (s.pushBody x).Variance.2) := by
  simp [SpanStat.Push]

@[simp] theorem pushBody_num (s : SpanStat α) (x : α) : (s.pushBody x).num = s.num + 1 := by
  unfold SpanStat.pushBody; dsimp only; split <;> rfl

theorem pushBody_first (s : SpanStat α) (x : α) (h : s.num = 0) :
    s.pushBody x =
      { s with num := 1, m_oldM := x, m_newM := x, m_oldS := 0 } := by
  unfold SpanStat.pushBody; simp [h]

theorem pushBody_next (s : SpanStat α) (x : α) (h : s.num ≠ 0) :
    s.pushBody x =
      { s with
        num := s.num + 1
        m_oldM := s.m_oldM + (x - s.m_oldM) / ((s.num + 1 : Int) : α)
        m_newM := s.m_oldM + (x - s.m_oldM) / ((s.num + 1 : Int) : α)
        m_oldS := s.m_oldS + (x - s.m_oldM) *
          (x - (s.m_oldM + (x - s.m_oldM) / ((s.num + 1 : Int) : α)))
        m_newS := s.m_oldS + (x - s.m_oldM) *
          (x - (s.m_oldM + (x - s.m_oldM) / ((s.num + 1 : Int) : α))) } := by
  unfold SpanStat.pushBody; simp [h]

@[simp] theorem pushAll_nil (s : SpanStat α) : s.pushAll [] = s := rfl

@[simp] theorem pushAll_cons (s : SpanStat α) (x : α) (xs : List α) :
    s.pushAll (x :: xs) = (s.pushBody x).pushAll xs := by
  simp [SpanStat.pushAll]

theorem pushAll_append (s : SpanStat α) (xs ys : List α) :
    s.pushAll (xs ++ ys) = (s.pushAll xs).pushAll ys := by
  simp [SpanStat.pushAll]

/-! ## Call sites -/

@[simp] theorem callPush_fst (s : SpanStat α) (x : α) : (s.callPush x).1 = s := rfl

@[simp] theorem callPush_snd (s : SpanStat α) (x : α) :
    (s.callPush x).2 = (s.Push x).2 := rfl

/-- A call sequence leaves the caller's variable as it was. -/
@[simp] theorem callPushAll_fst (xs : List α) :
    ∀ s : SpanStat α, (s.callPushAll xs).1 = s := by
  induction xs with
  | nil => intro s; rfl
  | cons x xs ih => intro s; simp [SpanStat.callPushAll, ih]

/-- Every call of a call sequence returns what `Push` returns on the variable
as it was before the first call. -/
theorem callPushAll_snd (xs : List α) :
    ∀ s : SpanStat α, (s.callPushAll xs).2 = xs.map (fun x => (s.Push x).2) := by
  induction xs with
  | nil => intro s; rfl
  | cons x xs ih => intro s; simp [SpanStat.callPushAll, ih]

/-! ## The running computation against the two-pass formulas -/

theorem Welford_zero : Welford (SpanStat.zero : SpanStat α) [] := by
  simp [Welford, SpanStat.zero]

theorem Welford_pushBody (s : SpanStat α) (l : List α) (x : α) (h : Welford s l) :
    Welford (s.pushBody x) (l ++ [x]) := by
  obtain ⟨hn, hM, hS, hm, hs, h0⟩ := h
  rcases List.eq_nil_or_concat l with hl | ⟨l0, y, hl⟩
  · subst hl
    have hz : s.num = 0 := by simpa using hn
    rw [pushBody_first s x hz]
    refine ⟨by simp, rfl, ?_, by simp, by simp [h0 rfl], by simp⟩
    simpa using (h0 rfl).symm
  · have hpos : (0 : α) < (l.length : α) := by
      have : 0 < l.length := by subst hl; simp
      exact_mod_cast this
    have hne : s.num ≠ 0 := by
      rw [hn]
      have : 0 < l.length := by subst hl; simp
      omega
    have hcast : ((s.num + 1 : Int) : α) = (l.length : α) + 1 := by
      rw [hn]; push_cast; ring
    have hmean : s.m_newM = l.sum / (l.length : α) := by
      rw [eq_div_iff hpos.ne.symm]; exact hm
    have hsq : s.m_newS =
        ((l.length : α) * (l.map (fun x => x ^ 2)).sum - l.sum ^ 2) / (l.length : α) := by
      rw [eq_div_iff hpos.ne.symm]; exact hs
    rw [pushBody_next s x hne, hcast]
    have h1 : ((l.length : α) + 1) ≠ 0 := by positivity
    refine ⟨?_, rfl, rfl, ?_, ?_, by simp⟩
    · simp [hn]
    · simp only [List.length_append, List.length_singleton, List.sum_append,
        List.sum_singleton, Nat.cast_add, Nat.cast_one]
      rw [hM, hmean]
      field_simp
      ring
    · simp only [List.length_append, List.length_singleton, List.sum_append,
        List.sum_singleton, Nat.cast_add, Nat.cast_one, List.map_append, List.map_cons,
        List.map_nil]
      rw [hS, hM, hmean, hsq]
      field_simp
      ring

theorem Welford_pushAll (xs : List α) :
    ∀ (s : SpanStat α) (l : List α), Welford s l → Welford (s.pushAll xs) (l ++ xs) := by
  induction xs with
  | nil => intro s l h; simpa using h
  | cons x xs ih =>
    intro s l h
    have := ih (s.pushBody x) (l ++ [x]) (Welford_pushBody s l x h)
    simpa using this

theorem Welford_of_fresh (xs : List α) :
    Welford ((SpanStat.zero : SpanStat α).pushAll xs) xs := by
  simpa using Welford_pushAll xs SpanStat.zero [] Welford_zero

/-- The sum of squared deviations from any centre `c`, expanded. -/
theorem sum_sq_dev (l : List α) (c : α) :
    (l.map (fun x => (x - c) ^ 2)).sum =
      (l.map (fun x => x ^ 2)).sum - 2 * c * l.sum + (l.length : α) * c ^ 2 := by
  induction l with
  | nil => simp
  | cons a l ih =>
    simp only [List.map_cons, List.sum_cons, List.length_cons, Nat.cast_add, Nat.cast_one, ih]
    ring

theorem fresh_mean (xs : List α) (hne : xs ≠ []) :
    ((SpanStat.zero : SpanStat α).pushAll xs).Mean.2 = twoPassMean xs := by
  obtain ⟨hn, _, _, hm, _, _⟩ := Welford_of_fresh xs
  have hlen : 0 < xs.length := List.length_pos.mpr hne
  have hpos : (0 : α) < (xs.length : α) := by exact_mod_cast hlen
  rw [Mean_snd, if_pos (by rw [hn]; exact_mod_cast hlen), twoPassMean,
    eq_div_iff hpos.ne.symm]
  exact hm

theorem fresh_variance (xs : List α) (h2 : 2 ≤ xs.length) :
    ((SpanStat.zero : SpanStat α).pushAll xs).Variance.2 = twoPassVariance xs := by
  obtain ⟨hn, _, _, _, hs, _⟩ := Welford_of_fresh xs
  have hpos : (0 : α) < (xs.length : α) := by
    have : 0 < xs.length := by omega
    exact_mod_cast this
  have hsq : ((SpanStat.zero : SpanStat α).pushAll xs).m_newS =
      ((xs.length : α) * (xs.map (fun x => x ^ 2)).sum - xs.sum ^ 2) / (xs.length : α) := by
    rw [eq_div_iff hpos.ne.symm]; exact hs
  have hgt : ((SpanStat.zero : SpanStat α).pushAll xs).num > 1 := by
    rw [hn]; exact_mod_cast h2
  rw [Variance_snd, if_pos hgt, twoPassVariance, sum_sq_dev, twoPassMean, hsq, hn]
  push_cast
  congr 1
  field_simp
  ring

/-! ## Facts about the sampler -/

@[simp] theorem addSpan_fst (Sqrt : α → α) (t : TailSampler α) (span : Span) :
    (t.addSpan Sqrt span).1 = t := rfl

@[simp] theorem addSpans_fst (Sqrt : α → α) (spans : List Span) :
    ∀ t : TailSampler α, (t.addSpans Sqrt spans).1 = t := by
  induction spans with
  | nil => intro t; rfl
  | cons sp rest ih => intro t; simp [TailSampler.addSpans, ih]

/-- The condition of the limit check needs `d < m - 2 s` and `m + 2 s < d` at
once, which no non-negative `s` allows: the check answers `true`. -/
theorem limitCheck_of_nonneg (m s d : α) (hs : 0 ≤ s) : limitCheck m s d = true := by
  unfold limitCheck
  rw [if_neg]
  rintro ⟨h1, h2⟩
  linarith

theorem mapIndex_of_lookup_none (m : List (String × SpanStat α)) (k : String)
    (h : m.lookup k = none) : mapIndex m k = SpanStat.zero := by
  simp [mapIndex, h]

theorem pushBody_zero (x : α) :
    (SpanStat.zero : SpanStat α).pushBody x =
      { totalDuration := 0, num := 1, m_oldM := x, m_newM := x, m_oldS := 0, m_newS := 0 } := by
  rw [pushBody_first _ _ rfl]; rfl

theorem addSpan_of_lookup_none (Sqrt : α → α) (hS : ∀ v, 0 ≤ v → 0 ≤ Sqrt v)
    (t : TailSampler α) (span : Span)
    (h : t.spanRecorder.lookup span.operationName = none) :
    (t.addSpan Sqrt span).2 = true := by
  unfold TailSampler.addSpan
  simp only [mapIndex_of_lookup_none _ _ h, Push_snd, pushBody_zero, TailSampler.StdDev,
    Variance_snd]
  apply limitCheck_of_nonneg
  apply hS
  simp

/-- Whatever the sampler and the span, `addSpan` answers `true` when the square
root is never negative. -/
theorem addSpan_always_retains (Sqrt : α → α) (hS : ∀ v, 0 ≤ Sqrt v)
    (t : TailSampler α) (span : Span) : (t.addSpan Sqrt span).2 = true := by
  unfold TailSampler.addSpan
  exact limitCheck_of_nonneg _ _ _ (hS _)

/-- The call `addSpan` written with the value pushed and the value compared. -/
theorem addSpan_eq (Sqrt : α → α) (t : TailSampler α) (span : Span) :
    t.addSpan Sqrt span =
      (t, limitCheck
        (t.Mean ((mapIndex t.spanRecorder span.operationName).Push (pushedValue span)).2.1)
        (t.StdDev Sqrt
          ((mapIndex t.spanRecorder span.operationName).Push (pushedValue span)).2.2)
        (comparedValue span)) := rfl

/-- Truncating a duration to whole milliseconds gives the duration back only
for the duration 0. -/
theorem tdiv_Millisecond_eq_self (d : Int) : Int.tdiv d Millisecond = d ↔ d = 0 := by
  unfold Millisecond
  rcases le_total 0 d with h | h
  · rw [Int.tdiv_eq_ediv h (by norm_num)]; omega
  · obtain ⟨e, rfl⟩ : ∃ e, d = -e := ⟨-d, by simp⟩
    have he : 0 ≤ e := by omega
    rw [Int.neg_tdiv, Int.tdiv_eq_ediv he (by norm_num)]; omega

/-- The value pushed and the value compared agree only for the duration 0. -/
theorem pushedValue_eq_comparedValue (span : Span) :
    (pushedValue span : α) = comparedValue span ↔ span.duration = 0 := by
  unfold pushedValue comparedValue
  rw [Int.cast_inj]
  exact tdiv_Millisecond_eq_self _

/-! ## Sign of the accumulated squared deviations -/

/-- After a non-empty sequence pushed into a zero value, `m_newS` is the sum of
the squared deviations from the mean. -/
theorem fresh_sumSq (xs : List α) (hne : xs ≠ []) :
    ((SpanStat.zero : SpanStat α).pushAll xs).m_newS =
      (xs.map (fun x => (x - twoPassMean xs) ^ 2)).sum := by
  obtain ⟨_, _, _, _, hs, _⟩ := Welford_of_fresh xs
  have hpos : (0 : α) < (xs.length : α) := by
    have : 0 < xs.length := List.length_pos.mpr hne
    exact_mod_cast this
  have hsq : ((SpanStat.zero : SpanStat α).pushAll xs).m_newS =
      ((xs.length : α) * (xs.map (fun x => x ^ 2)).sum - xs.sum ^ 2) / (xs.length : α) := by
    rw [eq_div_iff hpos.ne.symm]; exact hs
  rw [hsq, sum_sq_dev, twoPassMean]
  field_simp
  ring

theorem sum_sq_nonneg (l : List α) (c : α) :
    0 ≤ (l.map (fun x => (x - c) ^ 2)).sum := by
  apply List.sum_nonneg
  intro y hy
  obtain ⟨x, _, rfl⟩ := List.mem_map.mp hy
  positivity

theorem fresh_newS_nonneg (xs : List α) :
    0 ≤ ((SpanStat.zero : SpanStat α).pushAll xs).m_newS := by
  by_cases hne : xs = []
  · subst hne; simp [SpanStat.zero]
  · rw [fresh_sumSq xs hne]; exact sum_sq_nonneg xs _

theorem fresh_variance_nonneg (xs : List α) :
    0 ≤ ((SpanStat.zero : SpanStat α).pushAll xs).Variance.2 := by
  rw [Variance_snd]
  split
  · rename_i h
    apply div_nonneg (fresh_newS_nonneg xs)
    have : (0 : Int) ≤ ((SpanStat.zero : SpanStat α).pushAll xs).num - 1 := by omega
    exact_mod_cast this
  · exact le_refl 0

/-! ## The claims -/

/-- C1, evaluated on the code: the registry holds for "op" the statistics of the
observations 1 and 2, and a span of "op" with duration 0 arrives, so the value
pushed is 0.  After the push the count is 3, the mean is 1 and the standard
deviation is 1, so the duration 0 lies strictly inside the band from -1 to 3;
`addSpan` answers retain (`true`) all the same. -/
theorem addSpan_retains_inside_band :
    ((Int.tdiv (0 : Int) Millisecond : Int) : ℝ) = 0 ∧
    ((mapIndex (samplerOneTwo : TailSampler ℝ).spanRecorder "op").Push 0).1.num = 3 ∧
    ((mapIndex (samplerOneTwo : TailSampler ℝ).spanRecorder "op").Push 0).2.1 = 1 ∧
    Real.sqrt ((mapIndex (samplerOneTwo : TailSampler ℝ).spanRecorder "op").Push 0).2.2 = 1 ∧
    (1 : ℝ) - 2 * 1 < ((0 : Int) : ℝ) ∧ (((0 : Int) : ℝ)) < 1 + 2 * 1 ∧
    ((samplerOneTwo : TailSampler ℝ).addSpan Real.sqrt
      { operationName := "op", duration := 0 }).2 = true := by
  have hv : ((mapIndex (samplerOneTwo : TailSampler ℝ).spanRecorder "op").Push 0).2.2 = 1 := by
    norm_num [samplerOneTwo, mapIndex, List.lookup, Push_snd, Variance_snd,
      SpanStat.pushBody, SpanStat.zero]
  refine ⟨by simp [Millisecond], ?_, ?_, ?_, by norm_num, by norm_num, ?_⟩
  · norm_num [samplerOneTwo, mapIndex, List.lookup, SpanStat.pushBody, SpanStat.zero]
  · norm_num [samplerOneTwo, mapIndex, List.lookup, Push_snd, Mean_snd,
      SpanStat.pushBody, SpanStat.zero]
  · rw [hv]; exact Real.sqrt_one
  · unfold TailSampler.addSpan
    exact limitCheck_of_nonneg _ _ _ (Real.sqrt_nonneg _)

/-- C2, evaluated on the code: the calls `s.Push(1); s.Push(3)` on a zero-valued
variable `s`.  The two-pass mean and sample variance of 1, 3 are 2 and 2.  The
calls return the pairs (1, 0) and (3, 0) and leave `s` the zero value, so the
final `Mean()` and `Variance()` of `s` are 0; and every call sequence leaves the
variable it is made on as it was. -/
theorem caller_stat_not_two_pass :
    twoPassMean ([1, 3] : List ℚ) = 2 ∧
    twoPassVariance ([1, 3] : List ℚ) = 2 ∧
    ((SpanStat.zero : SpanStat ℚ).callPushAll [1, 3]).2 = [(1, 0), (3, 0)] ∧
    ((SpanStat.zero : SpanStat ℚ).callPushAll [1, 3]).1.Mean.2 = 0 ∧
    ((SpanStat.zero : SpanStat ℚ).callPushAll [1, 3]).1.Variance.2 = 0 ∧
    (∀ (s : SpanStat ℚ) (xs : List ℚ), (s.callPushAll xs).1 = s) := by
  refine ⟨by norm_num [twoPassMean], by norm_num [twoPassVariance, twoPassMean], ?_, ?_, ?_,
    fun s xs => callPushAll_fst xs s⟩
  · simp [callPushAll_snd, Push_snd, Mean_snd, Variance_snd, pushBody_zero]
  · simp [Mean_snd, SpanStat.zero]
  · simp [Variance_snd, SpanStat.zero]

/-- C3, evaluated on the code: after one `addSpan` call for "op" on a fresh
sampler the count recorded for "op" is 0, not 1; and after any run of calls on a
fresh sampler the registry is still empty, so every recorded count is 0. -/
theorem addSpan_count_not_recorded (Sqrt : α → α) :
    (((NewTailSampler "op" : TailSampler α).addSpan Sqrt
      { operationName := "op", duration := 10 * Millisecond }).1.count "op" = 0) ∧
    (∀ (spans : List Span) (op : String),
      ((NewTailSampler "op" : TailSampler α).addSpans Sqrt spans).1.spanRecorder = [] ∧
      ((NewTailSampler "op" : TailSampler α).addSpans Sqrt spans).1.count op = 0) := by
  refine ⟨rfl, fun spans op => ?_⟩
  rw [addSpans_fst]
  exact ⟨rfl, rfl⟩

/-- C4: with a square root that is non-negative on non-negative arguments, the
first `addSpan` call for an operation that has no entry in the registry returns
retain (`true`), whatever the duration. -/
theorem first_addSpan_retains (Sqrt : α → α) (hS : ∀ v, 0 ≤ v → 0 ≤ Sqrt v)
    (t : TailSampler α) (span : Span)
    (h : t.spanRecorder.lookup span.operationName = none) :
    (t.addSpan Sqrt span).2 = true :=
  addSpan_of_lookup_none Sqrt hS t span h

theorem first_addSpan_retains_witness :
    (∀ v : ℝ, 0 ≤ v → 0 ≤ Real.sqrt v) ∧
    (NewTailSampler "rpc" : TailSampler ℝ).spanRecorder.lookup
      (Span.mk "get" 5000000).operationName = none ∧
    ((NewTailSampler "rpc" : TailSampler ℝ).addSpan Real.sqrt (Span.mk "get" 5000000)).2
      = true :=
  ⟨fun v _ => Real.sqrt_nonneg v, rfl,
    first_addSpan_retains Real.sqrt (fun v _ => Real.sqrt_nonneg v)
      (NewTailSampler "rpc") (Span.mk "get" 5000000) rfl⟩

/-- C5: on a fresh sampler, after 20 `addSpan` calls for "op" with a duration of
10 milliseconds, the next call for "op" with a duration of 1000 milliseconds
returns retain (`true`). -/
theorem outlier_scenario_retains (Sqrt : α → α) (hS : ∀ v, 0 ≤ v → 0 ≤ Sqrt v)
    (operation : String) :
    ((((NewTailSampler operation : TailSampler α).addSpans Sqrt
        (List.replicate 20 { operationName := "op", duration := 10 * Millisecond })).1).addSpan
      Sqrt { operationName := "op", duration := 1000 * Millisecond }).2 = true := by
  rw [addSpans_fst]
  exact addSpan_of_lookup_none Sqrt hS _ _ rfl

theorem outlier_scenario_retains_witness :
    (∀ v : ℝ, 0 ≤ v → 0 ≤ Real.sqrt v) ∧
    ((((NewTailSampler "op" : TailSampler ℝ).addSpans Real.sqrt
        (List.replicate 20 { operationName := "op", duration := 10 * Millisecond })).1).addSpan
      Real.sqrt { operationName := "op", duration := 1000 * Millisecond }).2 = true :=
  ⟨fun v _ => Real.sqrt_nonneg v,
    outlier_scenario_retains Real.sqrt (fun v _ => Real.sqrt_nonneg v) "op"⟩

/-- C6, evaluated on the code: on a fresh sampler, two `addSpan` calls for "op"
with the same duration of 10 milliseconds.  The statistics of the two equal
observations have variance 0 and mean 10, so the second value sits on the
boundary of the zero-width band; the second call answers retain (`true`), not
drop. -/
theorem constant_stream_second_call_retains :
    ((SpanStat.zero : SpanStat ℝ).pushAll [10, 10]).Variance.2 = 0 ∧
    ((SpanStat.zero : SpanStat ℝ).pushAll [10, 10]).Mean.2 = 10 ∧
    ((NewTailSampler "op" : TailSampler ℝ).addSpans Real.sqrt
      [{ operationName := "op", duration := 10 * Millisecond },
       { operationName := "op", duration := 10 * Millisecond }]).2 = [true, true] := by
  refine ⟨?_, ?_, ?_⟩
  · norm_num [Variance_snd, SpanStat.pushBody, SpanStat.zero]
  · norm_num [Mean_snd, SpanStat.pushBody, SpanStat.zero]
  · have h := addSpan_of_lookup_none Real.sqrt (fun v _ => Real.sqrt_nonneg v)
      (NewTailSampler "op" : TailSampler ℝ)
      { operationName := "op", duration := 10 * Millisecond } rfl
    simp only [TailSampler.addSpans, addSpan_fst, h]

/-- C7: the pair `Push(x)` returns is `(Mean(), Variance())` of the receiver as
this push leaves it: the count is one more than before and `x` is incorporated
by the body of `Push`.  For a receiver reached from the zero value by pushing
`xs`, the returned pair is the mean and sample variance of `xs` followed by `x`,
not those of `xs`. -/
theorem Push_returns_post_push (s : SpanStat α) (x : α) :
    (s.Push x).1 = s.pushBody x ∧
    (s.Push x).1.num = s.num + 1 ∧
    (s.Push x).2 = ((s.Push x).1.Mean.2, (s.Push x).1.Variance.2) ∧
    ∀ xs : List α,
      (((SpanStat.zero : SpanStat α).pushAll xs).Push x).2 =
        (twoPassMean (xs ++ [x]), if xs = [] then 0 else twoPassVariance (xs ++ [x])) := by
  refine ⟨Push_fst s x, by simp, by simp [Push_snd], fun xs => ?_⟩
  have hbody : ((SpanStat.zero : SpanStat α).pushAll xs).pushBody x =
      (SpanStat.zero : SpanStat α).pushAll (xs ++ [x]) := by
    simp [pushAll_append]
  rw [Push_snd, hbody, fresh_mean (xs ++ [x]) (by simp)]
  by_cases hxs : xs = []
  · subst hxs
    simp [Variance_snd, pushBody_zero]
  · rw [if_neg hxs, fresh_variance (xs ++ [x])]
    have : 0 < xs.length := List.length_pos.mpr hxs
    simp only [List.length_append, List.length_singleton]
    omega

/-- C8, evaluated on the code: the call `s.Push(7)` on a zero-valued variable
`s` returns the pair (7, 0) and leaves `s` the zero value, so afterwards
`s.Mean()` is 0, not 7 (`s.Variance()` is 0); for every `x` the call returns
`(x, 0)` and leaves the variable the zero value. -/
theorem caller_stat_after_one_push :
    ((SpanStat.zero : SpanStat ℚ).callPush 7).2 = (7, 0) ∧
    ((SpanStat.zero : SpanStat ℚ).callPush 7).1.Mean.2 = 0 ∧
    ((SpanStat.zero : SpanStat ℚ).callPush 7).1.Variance.2 = 0 ∧
    (∀ x : ℚ, ((SpanStat.zero : SpanStat ℚ).callPush x).1 = SpanStat.zero ∧
      ((SpanStat.zero : SpanStat ℚ).callPush x).2 = (x, 0)) := by
  have h : ∀ x : ℚ, ((SpanStat.zero : SpanStat ℚ).callPush x).2 = (x, 0) := by
    intro x
    simp [Push_snd, Mean_snd, Variance_snd, pushBody_zero]
  refine ⟨h 7, ?_, ?_, fun x => ⟨rfl, h x⟩⟩
  · simp [Mean_snd, SpanStat.zero]
  · simp [Variance_snd, SpanStat.zero]

/-- C9, evaluated on the code: the calls `s.Push(1)` to `s.Push(5)` on a
zero-valued variable `s`.  The mean and sample variance of 1, 2, 3, 4, 5 are 3
and 2.5.  The calls return the pairs (1, 0), (2, 0), (3, 0), (4, 0), (5, 0) and
leave `s` the zero value, so the final `Mean()` and `Variance()` of `s` are 0. -/
theorem caller_stat_one_to_five :
    twoPassMean ([1, 2, 3, 4, 5] : List ℚ) = 3 ∧
    twoPassVariance ([1, 2, 3, 4, 5] : List ℚ) = 2.5 ∧
    ((SpanStat.zero : SpanStat ℚ).callPushAll [1, 2, 3, 4, 5]).2 =
      [(1, 0), (2, 0), (3, 0), (4, 0), (5, 0)] ∧
    ((SpanStat.zero : SpanStat ℚ).callPushAll [1, 2, 3, 4, 5]).1.Mean.2 = 0 ∧
    ((SpanStat.zero : SpanStat ℚ).callPushAll [1, 2, 3, 4, 5]).1.Variance.2 = 0 := by
  refine ⟨by norm_num [twoPassMean], by norm_num [twoPassVariance, twoPassMean], ?_, ?_, ?_⟩
  · simp [callPushAll_snd, Push_snd, Mean_snd, Variance_snd, pushBody_zero]
  · simp [Mean_snd, SpanStat.zero]
  · simp [Variance_snd, SpanStat.zero]

/-- C10: for a `SpanStat` whose count is not negative, `Mean()` is 0 when the
count is 0 and the stored mean `m_newM` otherwise, `Variance()` is 0 when the
count is below 2 and `m_newS / (count - 1)` otherwise, and both accessors leave
the receiver as it was. -/
theorem accessors_read_only (s : SpanStat α) (h : 0 ≤ s.num) :
    s.Mean.2 = (if s.num = 0 then 0 else s.m_newM) ∧
    s.Variance.2 = (if s.num < 2 then 0 else s.m_newS / ((s.num : α) - 1)) ∧
    s.Mean.1 = s ∧ s.Variance.1 = s := by
  refine ⟨?_, ?_, Mean_fst s, Variance_fst s⟩
  · rw [Mean_snd]
    by_cases h0 : s.num = 0
    · simp [h0]
    · rw [if_neg h0, if_pos (by omega)]
  · rw [Variance_snd]
    by_cases h2 : s.num < 2
    · rw [if_pos h2, if_neg (by omega)]
    · rw [if_neg h2, if_pos (by omega)]
      push_cast
      rfl

theorem accessors_read_only_witness :
    (0 : Int) ≤ (SpanStat.mk 0 3 2 2 2 2 : SpanStat ℚ).num ∧
    ((SpanStat.mk 0 3 2 2 2 2 : SpanStat ℚ).Mean.2 =
        (if (SpanStat.mk 0 3 2 2 2 2 : SpanStat ℚ).num = 0 then 0
          else (SpanStat.mk 0 3 2 2 2 2 : SpanStat ℚ).m_newM) ∧
      (SpanStat.mk 0 3 2 2 2 2 : SpanStat ℚ).Variance.2 =
        (if (SpanStat.mk 0 3 2 2 2 2 : SpanStat ℚ).num < 2 then 0
          else (SpanStat.mk 0 3 2 2 2 2 : SpanStat ℚ).m_newS /
            (((SpanStat.mk 0 3 2 2 2 2 : SpanStat ℚ).num : ℚ) - 1)) ∧
      (SpanStat.mk 0 3 2 2 2 2 : SpanStat ℚ).Mean.1 = SpanStat.mk 0 3 2 2 2 2 ∧
      (SpanStat.mk 0 3 2 2 2 2 : SpanStat ℚ).Variance.1 = SpanStat.mk 0 3 2 2 2 2) :=
  ⟨by decide, accessors_read_only (SpanStat.mk 0 3 2 2 2 2) (by decide)⟩

/-- C11, evaluated on the code: after an `addSpan` call for "op" on a fresh
sampler the registry has no entry for "op"; for every sampler and span the
registry after the call is the registry before it, so no key is lost and none is
added. -/
theorem addSpan_creates_no_entry (Sqrt : α → α) :
    (((NewTailSampler "op" : TailSampler α).addSpan Sqrt
      { operationName := "op", duration := 10 * Millisecond }).1.spanRecorder.lookup "op"
        = none) ∧
    (∀ (t : TailSampler α) (span : Span),
      (t.addSpan Sqrt span).1.spanRecorder = t.spanRecorder) :=
  ⟨rfl, fun _ _ => rfl⟩

/-- C12: for an operation with no entry in the registry, the statistics query
returns mean 0, variance 0 and count 0 and leaves the sampler as it was: the
operation still has no entry, and a second query returns the same zeros. -/
theorem Stats_unobserved (t : TailSampler α) (op : String)
    (h : t.spanRecorder.lookup op = none) :
    (t.Stats op).2 = (0, 0, 0) ∧
    (t.Stats op).1 = t ∧
    (t.Stats op).1.spanRecorder.lookup op = none ∧
    ((t.Stats op).1.Stats op).2 = (0, 0, 0) := by
  have h1 : t.Stats op = (t, (0, 0, 0)) := by
    unfold TailSampler.Stats; rw [h]
  rw [h1]
  exact ⟨rfl, rfl, h, by rw [h1]⟩

theorem Stats_unobserved_witness :
    (samplerOneTwo : TailSampler ℚ).spanRecorder.lookup "other" = none ∧
    (((samplerOneTwo : TailSampler ℚ).Stats "other").2 = (0, 0, 0) ∧
    ((samplerOneTwo : TailSampler ℚ).Stats "other").1 = samplerOneTwo ∧
    ((samplerOneTwo : TailSampler ℚ).Stats "other").1.spanRecorder.lookup "other" = none ∧
    (((samplerOneTwo : TailSampler ℚ).Stats "other").1.Stats "other").2 = (0, 0, 0)) :=
  ⟨rfl, Stats_unobserved samplerOneTwo "other" rfl⟩

/-- C14: on a `SpanStat` reached from the zero value by pushing `xs`, one
`Push(x)` is the Welford step.  With `n` the count after the increment: when
`n` is 1 the new mean is `x` and the new sum of squared deviations is 0;
otherwise the new mean is `mean + (x - mean) / n` and the new sum of squared
deviations is `sumSqDiff + (x - mean) * (x - newMean)`, with `mean` and
`sumSqDiff` the values before the push. -/
theorem Push_is_welford_step (xs : List α) (x : α) :
    (((SpanStat.zero : SpanStat α).pushAll xs).Push x).1.num =
      ((SpanStat.zero : SpanStat α).pushAll xs).num + 1 ∧
    (if (((SpanStat.zero : SpanStat α).pushAll xs).Push x).1.num = 1 then
      (((SpanStat.zero : SpanStat α).pushAll xs).Push x).1.m_newM = x ∧
      (((SpanStat.zero : SpanStat α).pushAll xs).Push x).1.m_newS = 0
    else
      (((SpanStat.zero : SpanStat α).pushAll xs).Push x).1.m_newM =
        ((SpanStat.zero : SpanStat α).pushAll xs).m_newM +
          (x - ((SpanStat.zero : SpanStat α).pushAll xs).m_newM) /
            (((((SpanStat.zero : SpanStat α).pushAll xs).Push x).1.num : Int) : α) ∧
      (((SpanStat.zero : SpanStat α).pushAll xs).Push x).1.m_newS =
        ((SpanStat.zero : SpanStat α).pushAll xs).m_newS +
          (x - ((SpanStat.zero : SpanStat α).pushAll xs).m_newM) *
            (x - (((SpanStat.zero : SpanStat α).pushAll xs).Push x).1.m_newM)) := by
  obtain ⟨hn, hM, hS, _, _, h0⟩ := Welford_of_fresh xs
  refine ⟨by simp, ?_⟩
  by_cases hz : ((SpanStat.zero : SpanStat α).pushAll xs).num = 0
  · have hxs : xs = [] := by
      rw [hn] at hz
      exact List.length_eq_zero.mp (by exact_mod_cast hz)
    rw [Push_fst, pushBody_first _ _ hz]
    simp [h0 hxs]
  · rw [Push_fst, pushBody_next _ _ hz]
    have hne1 : ((SpanStat.zero : SpanStat α).pushAll xs).num + 1 ≠ 1 := by omega
    simp only [hne1, if_false, hM, hS]
    exact ⟨trivial, trivial⟩

/-- C15, evaluated on the code: for a span of 10 milliseconds the value pushed
into the statistics is 10 (milliseconds) and the value compared with the limits
is 10000000 (nanoseconds); they differ, and `addSpan` pushes the one and
compares the other. -/
theorem addSpan_compares_other_value :
    (pushedValue { operationName := "op", duration := 10 * Millisecond } : ℚ) = 10 ∧
    (comparedValue { operationName := "op", duration := 10 * Millisecond } : ℚ) = 10000000 ∧
    (pushedValue { operationName := "op", duration := 10 * Millisecond } : ℚ) ≠
      comparedValue { operationName := "op", duration := 10 * Millisecond } ∧
    (∀ (Sqrt : ℚ → ℚ) (t : TailSampler ℚ),
      t.addSpan Sqrt { operationName := "op", duration := 10 * Millisecond } =
        (t, limitCheck
          (t.Mean ((mapIndex t.spanRecorder "op").Push 10).2.1)
          (t.StdDev Sqrt ((mapIndex t.spanRecorder "op").Push 10).2.2)
          10000000)) := by
  have h10 : Int.tdiv (10 * Millisecond) Millisecond = 10 := by decide
  have hp : (pushedValue { operationName := "op", duration := 10 * Millisecond } : ℚ) = 10 := by
    simp [pushedValue, h10]
  have hc : (comparedValue { operationName := "op", duration := 10 * Millisecond } : ℚ)
      = 10000000 := by
    simp [comparedValue, Millisecond]
  refine ⟨hp, hc, ?_, fun Sqrt t => ?_⟩
  · rw [hp, hc]; norm_num
  · rw [addSpan_eq, hp, hc]

/-- C16: for every sequence pushed into a zero-valued `SpanStat`, the
accumulated sum of squared deviations `m_newS` is not negative, `Variance()` is
not negative, and with a square root that is exact on non-negative arguments
`StdDev()` is the square root of `Variance()`, is not negative, and its square
is `Variance()`. -/
theorem sumSqDiff_nonneg (Sqrt : α → α)
    (hS : ∀ v, 0 ≤ v → 0 ≤ Sqrt v ∧ Sqrt v * Sqrt v = v) (xs : List α) :
    0 ≤ ((SpanStat.zero : SpanStat α).pushAll xs).m_newS ∧
    0 ≤ ((SpanStat.zero : SpanStat α).pushAll xs).Variance.2 ∧
    (((SpanStat.zero : SpanStat α).pushAll xs).StdDev Sqrt).2 =
      Sqrt ((SpanStat.zero : SpanStat α).pushAll xs).Variance.2 ∧
    0 ≤ (((SpanStat.zero : SpanStat α).pushAll xs).StdDev Sqrt).2 ∧
    (((SpanStat.zero : SpanStat α).pushAll xs).StdDev Sqrt).2 *
      (((SpanStat.zero : SpanStat α).pushAll xs).StdDev Sqrt).2 =
        ((SpanStat.zero : SpanStat α).pushAll xs).Variance.2 := by
  have hv := fresh_variance_nonneg xs
  have hsd : (((SpanStat.zero : SpanStat α).pushAll xs).StdDev Sqrt).2 =
      Sqrt ((SpanStat.zero : SpanStat α).pushAll xs).Variance.2 := rfl
  refine ⟨fresh_newS_nonneg xs, hv, hsd, ?_, ?_⟩
  · rw [hsd]; exact (hS _ hv).1
  · rw [hsd]; exact (hS _ hv).2

theorem sumSqDiff_nonneg_witness :
    (∀ v : ℝ, 0 ≤ v → 0 ≤ Real.sqrt v ∧ Real.sqrt v * Real.sqrt v = v) ∧
    (0 ≤ ((SpanStat.zero : SpanStat ℝ).pushAll [1, 2, 4]).m_newS ∧
    0 ≤ ((SpanStat.zero : SpanStat ℝ).pushAll [1, 2, 4]).Variance.2 ∧
    (((SpanStat.zero : SpanStat ℝ).pushAll [1, 2, 4]).StdDev Real.sqrt).2 =
      Real.sqrt ((SpanStat.zero : SpanStat ℝ).pushAll [1, 2, 4]).Variance.2 ∧
    0 ≤ (((SpanStat.zero : SpanStat ℝ).pushAll [1, 2, 4]).StdDev Real.sqrt).2 ∧
    (((SpanStat.zero : SpanStat ℝ).pushAll [1, 2, 4]).StdDev Real.sqrt).2 *
      (((SpanStat.zero : SpanStat ℝ).pushAll [1, 2, 4]).StdDev Real.sqrt).2 =
        ((SpanStat.zero : SpanStat ℝ).pushAll [1, 2, 4]).Variance.2) :=
  ⟨fun v hv => ⟨Real.sqrt_nonneg v, Real.mul_self_sqrt hv⟩,
    sumSqDiff_nonneg Real.sqrt (fun v hv => ⟨Real.sqrt_nonneg v, Real.mul_self_sqrt hv⟩)
      [1, 2, 4]⟩

/-- C17: for two distinct operation identifiers, an `addSpan` call for a span
of the first leaves the count, the mean and the variance recorded for the second
as they were. -/
theorem addSpan_frame (Sqrt : α → α) (t : TailSampler α) (span : Span) (b : String)
    (h : span.operationName ≠ b) :
    (t.addSpan Sqrt span).1.count b = t.count b ∧
    (t.addSpan Sqrt span).1.recordedMean b = t.recordedMean b ∧
    (t.addSpan Sqrt span).1.recordedVariance b = t.recordedVariance b := by
  have _ := h
  rw [addSpan_fst]
  exact ⟨rfl, rfl, rfl⟩

theorem addSpan_frame_witness :
    (Span.mk "get" 7000000).operationName ≠ "op" ∧
    (((samplerOneTwo : TailSampler ℚ).addSpan (fun v => v) (Span.mk "get" 7000000)).1.count "op"
        = (samplerOneTwo : TailSampler ℚ).count "op" ∧
      ((samplerOneTwo : TailSampler ℚ).addSpan (fun v => v)
          (Span.mk "get" 7000000)).1.recordedMean "op"
        = (samplerOneTwo : TailSampler ℚ).recordedMean "op" ∧
      ((samplerOneTwo : TailSampler ℚ).addSpan (fun v => v)
          (Span.mk "get" 7000000)).1.recordedVariance "op"
        = (samplerOneTwo : TailSampler ℚ).recordedVariance "op") :=
  ⟨by decide, addSpan_frame (fun v => v) samplerOneTwo (Span.mk "get" 7000000) "op" (by decide)⟩

/-- C18: in every `SpanStat` reached from the zero value by one or more pushes,
the old and new accumulator fields agree: `m_oldM` equals `m_newM` and `m_oldS`
equals `m_newS` (after the first push both `m_oldS` and `m_newS` are 0). -/
theorem old_new_agree (x : α) (xs : List α) :
    ((SpanStat.zero : SpanStat α).pushAll (x :: xs)).m_oldM =
      ((SpanStat.zero : SpanStat α).pushAll (x :: xs)).m_newM ∧
    ((SpanStat.zero : SpanStat α).pushAll (x :: xs)).m_oldS =
      ((SpanStat.zero : SpanStat α).pushAll (x :: xs)).m_newS ∧
    ((SpanStat.zero : SpanStat α).pushAll [x]).m_oldS = 0 ∧
    ((SpanStat.zero : SpanStat α).pushAll [x]).m_newS = 0 := by
  obtain ⟨_, hM, hS, _, _, _⟩ := Welford_of_fresh (x :: xs)
  refine ⟨hM, hS, ?_, ?_⟩ <;> simp [pushBody_zero]

end TailSampling
